import Mathlib

/-!
Shallow embedding of the streaming core of `tmux-cast` (`src/tmuxcast/stream.py`).

Bytes are modelled as `Nat` (Python ints in 0..255; the byte range itself plays
no role in the verified properties), byte strings as `List Nat`, and Python
stream positions as `Int` (Python integers are unbounded and read positions can
be negative).  Each Python method of `StreamBuffer` becomes a pure function on
a `StreamBuffer` record; methods that mutate `self` return the updated record.
`int(max_size * 0.75)` in `write` is embedded as `maxSize * 3 / 4` (natural
floor division): 0.75 is a dyadic rational, so the Python float product and
truncation agree with the exact value for every size below 2^51.
-/

/-- State of a `StreamBuffer` (stream.py lines 195-201): MP4 header, header
ready flag, the retained byte window, the configured maximum size, and the
total number of bytes ever written. -/
structure StreamBuffer where
  header : List Nat
  headerReady : Bool
  buffer : List Nat
  maxSize : Nat
  totalWritten : Nat
deriving DecidableEq

/-- `StreamBuffer.__init__` (stream.py lines 195-201). -/
def StreamBuffer.init (maxSize : Nat) : StreamBuffer :=
  { header := [], headerReady := false, buffer := [], maxSize := maxSize,
    totalWritten := 0 }

/-- `StreamBuffer.set_header` (stream.py lines 203-207): unconditionally stores
the header bytes and marks the header ready. -/
def StreamBuffer.set_header (st : StreamBuffer) (h : List Nat) : StreamBuffer :=
  { st with header := h, headerReady := true }

/-- `StreamBuffer.write` (stream.py lines 214-224): append the data, bump the
total, and if the retained window now exceeds `max_size`, drop the oldest
bytes down to `int(max_size * 0.75)`. -/
def StreamBuffer.write (st : StreamBuffer) (data : List Nat) : StreamBuffer :=
  let buf := st.buffer ++ data
  let tw := st.totalWritten + data.length
  if buf.length > st.maxSize then
    let keepSize := st.maxSize * 3 / 4
    let trim := buf.length - keepSize
    { st with buffer := buf.drop trim, totalWritten := tw }
  else
    { st with buffer := buf, totalWritten := tw }

/-- Python truthiness of the `max_bytes` argument: `None` and `0` are falsy,
any other integer is truthy (used by `if max_bytes:` in `read_from`). -/
def mbTruthy : Option Nat → Bool
  | none => false
  | some n => n != 0

/-- `StreamBuffer.read_from` (stream.py lines 226-279), transcribed branch by
branch.  The first `if` is the early return that chunks an oversized header;
`result0` is the `result` variable after the header-inclusion block; `pos1`
is `position` after the negative clamp, `pos2` after the trim clamp. -/
def StreamBuffer.read_from (st : StreamBuffer) (position : Int)
    (include_header : Bool) (max_bytes : Option Nat) : List Nat × Int :=
  if include_header = true ∧ position = 0 ∧ st.header ≠ [] ∧
      mbTruthy max_bytes = true ∧ max_bytes.getD 0 < st.header.length then
    let res := st.header.take (max_bytes.getD 0)
    (res, position + res.length)
  else
    let result0 : List Nat :=
      if include_header = true ∧ position = 0 ∧ st.header ≠ [] then st.header
      else []
    let pos1 : Int := if position < 0 then 0 else position
    let availableStart : Int := (st.totalWritten : Int) - st.buffer.length
    let pos2 : Int := if pos1 < availableStart then availableStart else pos1
    let bufferOffset : Int := pos2 - availableStart
    if bufferOffset < (st.buffer.length : Int) then
      let availableData := st.buffer.drop bufferOffset.toNat
      if mbTruthy max_bytes = true then
        let chunkSize := min (max_bytes.getD 0) availableData.length
        let result := result0 ++ availableData.take chunkSize
        (result, pos2 + result.length)
      else
        (result0 ++ availableData, (st.totalWritten : Int))
    else
      (result0, pos2)

/-- `StreamBuffer.has_new_data` (stream.py lines 281-301). -/
def StreamBuffer.has_new_data (st : StreamBuffer) (position : Int) : Bool :=
  if position < 0 then true
  else
    let availableStart : Int := (st.totalWritten : Int) - st.buffer.length
    if position < availableStart then true
    else position < (st.totalWritten : Int)

/-- Start of the retained window, `total_written - len(buffer)` (what the spec
calls `trim_start`; computed the same way at stream.py lines 254 and 296). -/
def StreamBuffer.trim_start (st : StreamBuffer) : Int :=
  (st.totalWritten : Int) - st.buffer.length

/-- A sequence of `write` calls, in order. -/
def writeAll (st : StreamBuffer) (ws : List (List Nat)) : StreamBuffer :=
  ws.foldl StreamBuffer.write st

/-- The client read loop of claim C1: repeatedly call
`read_from(pos, include_header=True)` feeding the returned position back in,
stopping when a call returns no data.  `fuel` bounds the number of calls so
the function is total; a loop that never returns empty data consumes all
fuel. -/
def drain (st : StreamBuffer) : Nat → Int → List Nat
  | 0, _ => []
  | fuel + 1, pos =>
    let r := st.read_from pos true none
    if r.1 = [] then [] else r.1 ++ drain st fuel r.2

/-- The mutating operations of `StreamBuffer` (the readers mutate nothing). -/
inductive BufOp where
  | wr (data : List Nat)
  | sh (h : List Nat)
deriving DecidableEq

/-- Apply one mutating operation. -/
def applyOp (st : StreamBuffer) : BufOp → StreamBuffer
  | .wr data => st.write data
  | .sh h => st.set_header h

/-- Apply a sequence of mutating operations starting from `st`. -/
def applyOps (st : StreamBuffer) (ops : List BufOp) : StreamBuffer :=
  ops.foldl applyOp st

/-- `read_from` viewed as a Python method call: the returned pair together
with the post-state of `self`.  The method body (stream.py 226-279) assigns
only local variables and never writes an attribute of `self`, so the
post-state is the receiver unchanged. -/
def StreamBuffer.read_fromM (st : StreamBuffer) (position : Int)
    (include_header : Bool) (max_bytes : Option Nat) :
    (List Nat × Int) × StreamBuffer :=
  (st.read_from position include_header max_bytes, st)

/-- `has_new_data` viewed as a Python method call, with the post-state of
`self`; the body (stream.py 281-301) never writes an attribute of `self`. -/
def StreamBuffer.has_new_dataM (st : StreamBuffer) (position : Int) :
    Bool × StreamBuffer :=
  (st.has_new_data position, st)

/-- The literal fragment marker searched for by the extractor: the ASCII
bytes of the string used at stream.py line 105. -/
def moofPat : List Nat := [109, 111, 111, 102]

/-- Whether `pat` occurs at the very start of `buf`. -/
def listStarts : List Nat → List Nat → Bool
  | _, [] => true
  | [], _ :: _ => false
  | b :: bs, p :: ps => b == p && listStarts bs ps

/-- Index (counting from `i`) of the first occurrence of `pat` in the
remaining buffer, scanning left to right. -/
def findSubFrom (pat : List Nat) : List Nat → Nat → Option Nat
  | [], i => if pat = [] then some i else none
  | b :: rest, i =>
    if listStarts (b :: rest) pat then some i
    else findSubFrom pat rest (i + 1)

/-- Python `bytes.find`: index of the first occurrence of `pat` in `buf`,
`none` when absent (Python returns -1). -/
def findSub (buf pat : List Nat) : Option Nat :=
  findSubFrom pat buf 0

/-- `struct.unpack` of a 4-byte big-endian unsigned integer (applied to a
slice that always has exactly 4 bytes). -/
def be32 (bs : List Nat) : Nat :=
  bs.foldl (fun acc b => acc * 256 + b) 0

/-- Header-extraction state inside `FrameEncoder._read_output`: the scratch
accumulation buffer, the captured header, and the completion latch. -/
structure ExtractState where
  headerBuffer : List Nat
  header : List Nat
  headerComplete : Bool
deriving DecidableEq

/-- One pass of the header-extraction logic for one arriving chunk
(stream.py lines 96-127).  If the header is already complete the chunk is
ignored by the extractor; otherwise the chunk is appended to the scratch
buffer, the first occurrence of the marker is located, and it is accepted as
the box boundary only when it lies at index >= 4 and the 4-byte big-endian
size field right before it is between 8 and the bytes available from the
size field to the end of the scratch buffer; on acceptance the header is the
bytes before the size field.  The 64 KB safety valve then runs
unconditionally (it is sequential, not an elif, in the source). -/
def extractStep (st : ExtractState) (chunk : List Nat) : ExtractState :=
  if st.headerComplete then st
  else
    let hb := st.headerBuffer ++ chunk
    let st1 : ExtractState :=
      if 32 ≤ hb.length then
        match findSub hb moofPat with
        | some moofPos =>
          if 4 ≤ moofPos then
            let atomStart := moofPos - 4
            let atomSize := be32 ((hb.drop atomStart).take 4)
            if 8 ≤ atomSize ∧ atomSize ≤ hb.length - atomStart then
              { headerBuffer := hb, header := hb.take atomStart,
                headerComplete := true }
            else
              { st with headerBuffer := hb }
          else
            { st with headerBuffer := hb }
        | none => { st with headerBuffer := hb }
      else
        { st with headerBuffer := hb }
    if 65536 < st1.headerBuffer.length then
      { st1 with header := st1.headerBuffer, headerComplete := true }
    else
      st1

/-- Outcome of the attempted pipe write inside `FrameEncoder.write_frame`:
the write succeeds, raises `BrokenPipeError`, or raises some other
exception. -/
inductive WriteOutcome where
  | ok
  | brokenPipe
  | otherError
deriving DecidableEq

/-- Encoder-adapter state relevant to `write_frame`: whether
`self._process and self._process.stdin` is truthy, and the `_running`
flag. -/
structure EncoderState where
  hasProcess : Bool
  running : Bool
deriving DecidableEq

/-- `FrameEncoder.write_frame` (stream.py lines 149-160).  The `Except`
result models Python exception propagation: an exception escaping the method
would be `.error`.  The body wraps the pipe write in try/except, turning
`BrokenPipeError` into `running := false` and swallowing every other
exception, so every branch is `.ok`. -/
def FrameEncoder.write_frame (st : EncoderState) (outcome : WriteOutcome) :
    Except String EncoderState :=
  if st.hasProcess then
    match outcome with
    | .ok => .ok st
    | .brokenPipe => .ok { st with running := false }
    | .otherError => .ok st
  else
    .ok st

/-- State of a `VideoStreamer` relevant to claim C7: the encoder adapter,
the server stream buffer, and the frame counter. -/
structure StreamerState where
  encoder : EncoderState
  buffer : StreamBuffer
  framesWritten : Nat
deriving DecidableEq

/-- `VideoStreamer.write_frame` (stream.py lines 619-622): forward to the
encoder and bump the frame counter; the stream buffer is not touched. -/
def VideoStreamer.write_frame (s : StreamerState) (outcome : WriteOutcome) :
    Except String StreamerState :=
  match FrameEncoder.write_frame s.encoder outcome with
  | .ok e => .ok { s with encoder := e, framesWritten := s.framesWritten + 1 }
  | .error msg => .error msg

/-- A concrete trimmed buffer: `max_size = 8`, header `[1,2,3]`, 12 bytes
written, so the retained window is the last 6 bytes and `trim_start = 6`. -/
def c8state : StreamBuffer :=
  ((StreamBuffer.init 8).set_header [1,2,3]).write [0,1,2,3,4,5,6,7,8,9,10,11]

/-- The concrete C3 scenario state: `max_size = 1000`, header `[7]`, ten
writes of 150 zero bytes each. -/
def c3state : StreamBuffer :=
  writeAll ((StreamBuffer.init 1000).set_header [7])
    (List.replicate 10 (List.replicate 150 0))

/-- The concrete C6 counterexample input: the 30 filler bytes already
contain an accidental marker at offset 4 whose preceding four bytes read as
the plausible size 10; then the declared size field 40, the marker, and 32
payload bytes. -/
def c6input : List Nat :=
  ([0,0,0,10] ++ moofPat ++ List.replicate 22 0) ++ [0,0,0,40] ++ moofPat
    ++ List.replicate 32 1

/-! ### Helper lemmas about `write` and `read_from` -/

/-- A `write` that keeps the window within `max_size` appends and never
trims. -/
theorem write_no_trim (st : StreamBuffer) (w : List Nat)
    (hle : st.buffer.length + w.length ≤ st.maxSize) :
    st.write w = ⟨st.header, st.headerReady, st.buffer ++ w, st.maxSize,
      st.totalWritten + w.length⟩ := by
  unfold StreamBuffer.write
  rw [if_neg (by simp; omega)]

/-- A `write` that overflows `max_size` appends and then drops the oldest
bytes down to `int(max_size * 0.75)`. -/
theorem write_trim (st : StreamBuffer) (w : List Nat)
    (hgt : st.maxSize < st.buffer.length + w.length) :
    st.write w = ⟨st.header, st.headerReady,
      (st.buffer ++ w).drop (st.buffer.length + w.length - st.maxSize * 3 / 4),
      st.maxSize, st.totalWritten + w.length⟩ := by
  unfold StreamBuffer.write
  rw [if_pos (by simp; omega)]
  simp

/-- A sequence of writes whose total stays within `max_size` concatenates
without ever trimming. -/
theorem writeAll_no_trim (ws : List (List Nat)) (st : StreamBuffer)
    (hle : st.buffer.length + (ws.map List.length).sum ≤ st.maxSize) :
    writeAll st ws = ⟨st.header, st.headerReady, st.buffer ++ ws.flatten,
      st.maxSize, st.totalWritten + (ws.map List.length).sum⟩ := by
  induction ws generalizing st with
  | nil =>
    cases st
    simp [writeAll]
  | cons w ws ih =>
    have h1 : st.buffer.length + w.length ≤ st.maxSize := by
      simp at hle; omega
    have := write_no_trim st w h1
    unfold writeAll
    rw [List.foldl_cons, this]
    have h2 := ih ⟨st.header, st.headerReady, st.buffer ++ w, st.maxSize,
      st.totalWritten + w.length⟩ (by simp at hle ⊢; omega)
    unfold writeAll at h2
    rw [h2]
    simp [List.append_assoc]
    omega





set_option maxHeartbeats 1000000 in
theorem read_no_data (st : StreamBuffer) (p : Int) (ih : Bool)
    (mb : Option Nat)
    (hnot : ¬(ih = true ∧ p = 0 ∧ st.header ≠ []))
    (h0 : 0 ≤ p) (hend : (st.totalWritten : Int) ≤ p) :
    st.read_from p ih mb = ([], p) := by
  simp only [StreamBuffer.read_from]
  split_ifs with h1 h2 h3 h4 h5 h6 h7 h8 h9 h10 h11 h12
  · exact absurd ⟨h1.1, h1.2.1, h1.2.2.1⟩ hnot
  all_goals
    first
      | rfl
      | (exfalso; omega)
      | (simp only [Prod.mk.injEq, true_and]; omega)

set_option maxHeartbeats 1000000 in
theorem read_zero_header_all (st : StreamBuffer)
    (hlb : st.buffer.length ≤ st.totalWritten) (hne : st.buffer ≠ []) :
    st.read_from 0 true none = (st.header ++ st.buffer, (st.totalWritten : Int)) := by
  have hlen : 0 < st.buffer.length := List.length_pos.mpr hne
  simp only [StreamBuffer.read_from, mbTruthy, Bool.false_eq_true, and_false,
    false_and, if_false]
  split_ifs with h1 h2 h3 h4 h5 h6 h7 h8 h9 h10 h11 h12
  all_goals (try (exfalso; omega))
  all_goals
    (try (have hh : st.header = [] := by
            simpa using ‹¬(True ∧ True ∧ st.header ≠ [])›
          rw [hh]))
  all_goals
    first
      | (have hz : (↑st.totalWritten - ↑st.buffer.length
            - (↑st.totalWritten - ↑st.buffer.length) : Int).toNat = 0 := by omega
         simp [hz]
         done)
      | (have hz : ((0:Int) - (↑st.totalWritten - ↑st.buffer.length)).toNat = 0 := by
           omega
         have hz2 : st.buffer.length - st.totalWritten = 0 := by omega
         simp [hz, hz2]
         done)

set_option maxHeartbeats 1000000 in
theorem read_untrimmed (st : StreamBuffer) (N : Nat)
    (htw : st.totalWritten = st.buffer.length) (hN : N ≤ st.buffer.length) :
    st.read_from (N : Int) false none
      = (st.buffer.drop N, (st.buffer.length : Int)) := by
  simp only [StreamBuffer.read_from, mbTruthy, Bool.false_eq_true, and_false,
    false_and, if_false]
  split_ifs with h1 h2 h3 h4 h5 h6 h7 h8
  all_goals (try (exfalso; omega))
  · have hz : ((N : Int) - ((st.totalWritten : Int) - st.buffer.length)).toNat
        = N := by omega
    simp [hz, htw]
  · have he : N = st.buffer.length := by omega
    simp [he, htw, List.drop_eq_nil_of_le]

/-- Reading position 0 of a buffer that holds no data yet returns exactly the
stored header (or nothing when the header is empty), leaving the position
at 0. -/
theorem read_zero_empty (st : StreamBuffer) (hb : st.buffer = [])
    (htw : st.totalWritten = 0) :
    st.read_from 0 true none = (st.header, 0) := by
  simp only [StreamBuffer.read_from, mbTruthy, Bool.false_eq_true, and_false,
    false_and, if_false, hb, htw]
  split_ifs with h1 h2 h3 h4 h5 h6
  all_goals (try (exfalso; omega))
  all_goals (try rfl)
  all_goals
    (try (have hh : st.header = [] := by
            simpa using ‹¬(True ∧ True ∧ st.header ≠ [])›
          simp [hh]))
  all_goals simp_all

/-! ### Invariant lemmas for the mutating operations -/

/-- One mutating operation keeps the retained window within `max_size` and
leaves `max_size` unchanged. -/
theorem applyOp_window (st : StreamBuffer) (op : BufOp)
    (h : st.buffer.length ≤ st.maxSize) :
    (applyOp st op).buffer.length ≤ (applyOp st op).maxSize ∧
    (applyOp st op).maxSize = st.maxSize := by
  cases op with
  | sh hh => simpa [applyOp, StreamBuffer.set_header] using h
  | wr d =>
    simp only [applyOp, StreamBuffer.write]
    split_ifs with hgt
    · refine ⟨?_, rfl⟩
      simp only [List.length_drop, List.length_append]
      omega
    · refine ⟨?_, rfl⟩
      simp only [List.length_append] at hgt ⊢
      omega

/-- One mutating operation never decreases `total_written`. -/
theorem applyOp_total_mono (st : StreamBuffer) (op : BufOp) :
    st.totalWritten ≤ (applyOp st op).totalWritten := by
  cases op with
  | sh hh => simp [applyOp, StreamBuffer.set_header]
  | wr d =>
    simp only [applyOp, StreamBuffer.write]
    split_ifs <;> simp

/-- Every state reachable by mutating operations keeps its window within
`max_size`, and `max_size` itself never changes. -/
theorem applyOps_window (ops : List BufOp) (st : StreamBuffer)
    (h : st.buffer.length ≤ st.maxSize) :
    (applyOps st ops).buffer.length ≤ (applyOps st ops).maxSize ∧
    (applyOps st ops).maxSize = st.maxSize := by
  induction ops generalizing st with
  | nil => exact ⟨h, rfl⟩
  | cons op ops ih =>
    have h1 := applyOp_window st op h
    have h2 := ih (applyOp st op) h1.1
    unfold applyOps at h2 ⊢
    rw [List.foldl_cons]
    exact ⟨h2.1, h2.2.trans h1.2⟩

/-! ### Claims -/

/-- Claim C2, counterexample: after `set_header([1])` then `set_header([2])`
the header delivered by `read_from(0, include_header=True)` is `[2]`, not the
first value `[1]` — the second call does replace the first. -/
theorem claim_C2_counterexample :
    (((StreamBuffer.init 10).set_header [1]).set_header [2]).read_from 0 true none
      = ([2], 0) ∧ ([2] : List Nat) ≠ [1] := by decide

/-- Claim C2 (amended): `set_header` is last-write-wins — after storing `h1`
and then `h2`, the stored header is `h2` and a fresh reader at position 0
with `include_header=True` receives `h2`; the once-only discipline is
enforced by the Pump calling `set_header` exactly once, not by the buffer. -/
theorem claim_C2_amended (st : StreamBuffer) (h1 h2 : List Nat) (m : Nat) :
    ((st.set_header h1).set_header h2).header = h2 ∧
    (((StreamBuffer.init m).set_header h1).set_header h2).read_from 0 true none
      = (h2, 0) := by
  exact ⟨rfl, read_zero_empty _ rfl rfl⟩

/-- Claim C5: every state reachable from a fresh buffer by any sequence of
mutating operations satisfies `total_written - trim_start ≤ max_size`, and
`total_written` never decreases under a further operation. -/
theorem claim_C5 (max : Nat) (ops : List BufOp) (op : BufOp) :
    ((applyOps (StreamBuffer.init max) ops).totalWritten : Int)
        - (applyOps (StreamBuffer.init max) ops).trim_start ≤ (max : Int) ∧
    (applyOps (StreamBuffer.init max) ops).totalWritten
      ≤ (applyOp (applyOps (StreamBuffer.init max) ops) op).totalWritten := by
  have h1 := applyOps_window ops (StreamBuffer.init max)
    (by simp [StreamBuffer.init])
  refine ⟨?_, applyOp_total_mono _ op⟩
  unfold StreamBuffer.trim_start
  have h2 := h1.1
  rw [h1.2, show (StreamBuffer.init max).maxSize = max from rfl] at h2
  omega

/-- Claim C7: `write_frame` never raises for any encoder state and any pipe
outcome; a broken pipe on a live process flips `running` to `false`; the
stream buffer is untouched, so everything previously buffered reads back
exactly as before. -/
theorem claim_C7 (s : StreamerState) (oc : WriteOutcome) :
    (∃ e, FrameEncoder.write_frame s.encoder oc = Except.ok e) ∧
    ∃ s1, VideoStreamer.write_frame s oc = Except.ok s1 ∧
      s1.buffer = s.buffer ∧
      s1.framesWritten = s.framesWritten + 1 ∧
      s1.encoder.running
        = (if s.encoder.hasProcess = true ∧ oc = WriteOutcome.brokenPipe
           then false else s.encoder.running) ∧
      ∀ p ih mb, s1.buffer.read_from p ih mb = s.buffer.read_from p ih mb := by
  obtain ⟨⟨hp, run⟩, buf, fr⟩ := s
  cases hp <;> cases oc <;>
    exact ⟨⟨_, rfl⟩, _, rfl, rfl, rfl, by simp, fun p ih mb => rfl⟩

/-- Claim C10, counterexample: with a nonempty header stored,
`read_from(-1, include_header=True)` is not the same as
`read_from(0, include_header=True)` — the header-inclusion check
`position == 0` runs before the negative clamp, so a negative position is
not simply treated as 0. -/
theorem claim_C10_counterexample :
    ((StreamBuffer.init 10).set_header [1]).read_from (-1) true none
      ≠ ((StreamBuffer.init 10).set_header [1]).read_from 0 true none := by
  decide

/-- Claim C10 (amended): `has_new_data` returns `true` for every negative
position, and `read_from` at a negative position clamps it to 0 before any
buffer indexing and behaves exactly like `read_from(0, include_header=False)`
— the header is never included because the `position == 0` check precedes the
clamp; both functions are total over all integer positions. -/
theorem claim_C10_amended (st : StreamBuffer) (p : Int) (ih : Bool)
    (mb : Option Nat) (hp : p < 0) :
    st.has_new_data p = true ∧
    st.read_from p ih mb = st.read_from 0 false mb := by
  have hne : ¬(p = 0) := by omega
  constructor
  · simp [StreamBuffer.has_new_data, hp]
  · simp [StreamBuffer.read_from, hne, hp, Bool.false_eq_true]

/-- Claim C10 witness: the amended statement at position -1 on a concrete
buffer with header `[1]`. -/
theorem claim_C10_witness :
    (-1 : Int) < 0 ∧
    ((StreamBuffer.init 10).set_header [1]).has_new_data (-1) = true ∧
    ((StreamBuffer.init 10).set_header [1]).read_from (-1) true none
      = ((StreamBuffer.init 10).set_header [1]).read_from 0 false none :=
  ⟨by decide,
   (claim_C10_amended ((StreamBuffer.init 10).set_header [1]) (-1) true none
     (by decide)).1,
   (claim_C10_amended ((StreamBuffer.init 10).set_header [1]) (-1) true none
     (by decide)).2⟩

/-- Claim C4, counterexample: with header `[1]` stored and nothing written,
`has_new_data(0)` is `false` (no new data has arrived), yet
`read_from(0, include_header=True)` returns the nonempty header rather than
empty data — repeated reads at position 0 re-deliver the header forever. -/
theorem claim_C4_counterexample :
    ((StreamBuffer.init 10).set_header [1]).has_new_data 0 = false ∧
    ((StreamBuffer.init 10).set_header [1]).read_from 0 true none = ([1], 0) ∧
    ([1] : List Nat) ≠ [] := by decide

/-- Claim C4 (amended): `new_position` returned by `read_from` is `≥` the
input position for every state and every argument; and when no new data is
available, a read with `include_header=False` returns empty data and the
unchanged position (with `include_header=True` at position 0 a stored
nonempty header is re-delivered instead, with unchanged position). -/
theorem claim_C4_amended (st : StreamBuffer) (p : Int) (ih : Bool)
    (mb : Option Nat) :
    p ≤ (st.read_from p ih mb).2 ∧
    (st.has_new_data p = false → st.read_from p false mb = ([], p)) := by
  constructor
  · simp only [StreamBuffer.read_from]
    split_ifs <;> simp <;> omega
  · intro hnd
    simp only [StreamBuffer.has_new_data] at hnd
    split_ifs at hnd with a b
    have c : ¬(p < (st.totalWritten : Int)) := by simpa using hnd
    exact read_no_data st p false mb (by simp) (by omega) (by omega)

/-- Claim C4 witness: the amended statement on a concrete buffer that has
written `[5,6]`, read at the caught-up position 2. -/
theorem claim_C4_witness :
    (((StreamBuffer.init 10).set_header [9]).write [5,6]).has_new_data 2 = false ∧
    (2:Int) ≤ ((((StreamBuffer.init 10).set_header [9]).write [5,6]).read_from
      2 true none).2 ∧
    (((StreamBuffer.init 10).set_header [9]).write [5,6]).read_from 2 false none
      = ([], 2) :=
  ⟨by decide,
   (claim_C4_amended (((StreamBuffer.init 10).set_header [9]).write [5,6])
     2 true none).1,
   (claim_C4_amended (((StreamBuffer.init 10).set_header [9]).write [5,6])
     2 false none).2 (by decide)⟩

/-- Claim C1, counterexample: with header `[1]` stored and an empty write
sequence, every `read_from(0, include_header=True)` returns the header again
with position still 0, so the read loop never reaches the empty-data stop
condition: two iterations already accumulate `[1,1]`, not header ++ writes
= `[1]` — the header is re-delivered (duplicated) forever. -/
theorem claim_C1_counterexample :
    drain ((StreamBuffer.init 10).set_header [1]) 2 0 = [1, 1] ∧
    ([1, 1] : List Nat) ≠ [1] ++ ([] : List (List Nat)).flatten := by decide

/-- Claim C1 (amended): for every write sequence totalling at most
`max_size` (no trimming) and at least one byte, the read loop from position
0 with `include_header=True` terminates after returning the header followed
by exactly the concatenation of all written bytes — nothing skipped,
duplicated, or reordered. -/
theorem claim_C1_amended (max : Nat) (h : List Nat) (ws : List (List Nat))
    (f : Nat) (hsum : (ws.map List.length).sum ≤ max) (hne : ws.flatten ≠ []) :
    drain (writeAll ((StreamBuffer.init max).set_header h) ws) (f + 2) 0
      = h ++ ws.flatten := by
  have hW : writeAll ((StreamBuffer.init max).set_header h) ws
      = ⟨h, true, ws.flatten, max, (ws.map List.length).sum⟩ := by
    rw [writeAll_no_trim ws _ (by simpa [StreamBuffer.init, StreamBuffer.set_header]
      using hsum)]
    simp [StreamBuffer.init, StreamBuffer.set_header]
  rw [hW]
  have hlen : ws.flatten.length = (ws.map List.length).sum := by
    simpa using List.length_flatten ws
  have hjpos : 0 < ws.flatten.length := List.length_pos.mpr hne
  have r1 : StreamBuffer.read_from ⟨h, true, ws.flatten, max,
      (ws.map List.length).sum⟩ 0 true none
      = (h ++ ws.flatten, ((ws.map List.length).sum : Int)) := by
    exact read_zero_header_all _ (by simpa using hlen.le) (by simpa using hne)
  have r2 : StreamBuffer.read_from ⟨h, true, ws.flatten, max,
      (ws.map List.length).sum⟩ ((ws.map List.length).sum : Int) true none
      = ([], ((ws.map List.length).sum : Int)) := by
    refine read_no_data _ _ true none ?_ (by positivity) (by simp)
    intro hc
    have h2 := hc.2.1
    have h3 : (0:Int) < ((ws.map List.length).sum : Int) := by
      exact_mod_cast hlen ▸ hjpos
    omega
  rw [drain, r1]
  have hap : h ++ ws.flatten ≠ [] := by simp [hne]
  rw [if_neg hap]
  rw [drain, r2]
  simp

/-- Claim C1 witness: the amended statement for one write `[5,6]` with
header `[9]` and `max_size = 10`. -/
theorem claim_C1_witness :
    ((([[5,6]] : List (List Nat)).map List.length).sum ≤ 10) ∧
    (([[5,6]] : List (List Nat)).flatten ≠ []) ∧
    drain (writeAll ((StreamBuffer.init 10).set_header [9]) [[5,6]]) 2 0
      = [9] ++ ([[5,6]] : List (List Nat)).flatten :=
  ⟨by decide, by decide, claim_C1_amended 10 [9] [[5,6]] 0 (by decide) (by decide)⟩

set_option maxHeartbeats 1000000 in
/-- Claim C8 (amended): for a position behind the retained window
(`position < trim_start`), and outside the header-chunking early return
(stored header longer than a truthy `max_bytes` at position 0), `read_from`
raises no error: it clamps the position up to `trim_start`, the returned
data is the optional header replay followed by bytes drawn only from the
start of the current retained window (evicted bytes are never returned),
and the returned position is at least `trim_start`. -/
theorem claim_C8_amended (st : StreamBuffer) (p : Int) (ih : Bool)
    (mb : Option Nat)
    (hlb : st.buffer.length ≤ st.totalWritten)
    (hp : p < st.trim_start)
    (hne : ¬(ih = true ∧ p = 0 ∧ st.header ≠ [] ∧ mbTruthy mb = true ∧
             mb.getD 0 < st.header.length)) :
    ∃ n, (st.read_from p ih mb).1
        = (if ih = true ∧ p = 0 ∧ st.header ≠ [] then st.header else [])
            ++ st.buffer.take n ∧
      st.trim_start ≤ (st.read_from p ih mb).2 := by
  simp only [StreamBuffer.trim_start] at hp ⊢
  simp only [StreamBuffer.read_from]
  rw [if_neg hne]
  split_ifs with h1 h2 h3 h4 h5 h6 h7 h8 h9 h10 h11 h12
  all_goals (try (exfalso; omega))
  all_goals
    (try (have hz1 : (↑st.totalWritten - ↑st.buffer.length
            - (↑st.totalWritten - ↑st.buffer.length) : Int).toNat = 0 := by omega
          simp only [hz1]))
  all_goals
    (try (have hz2 : ((0:Int) - (↑st.totalWritten - ↑st.buffer.length)).toNat
            = 0 := by omega
          simp only [hz2]))
  all_goals (try (simp only [List.drop_zero]))
  all_goals
    first
      | (refine ⟨mb.getD 0 ⊓ st.buffer.length, ?_, ?_⟩ <;>
           first | (simp; done) | (simp <;> omega))
      | (refine ⟨st.buffer.length, ?_, ?_⟩ <;>
           first | (simp; done) | (simp <;> omega))
      | (refine ⟨0, ?_, ?_⟩ <;>
           first | (simp; done) | (simp <;> omega))


/-- Claim C8, counterexample: at position 0 (behind `trim_start = 6`) with
`include_header=True` and `max_bytes = 2` smaller than the 3-byte header, the
header-chunking early return gives `new_position = 2 < trim_start`, so the
returned position is not at least `trim_start`. -/
theorem claim_C8_counterexample :
    c8state.read_from 0 true (some 2) = ([1, 2], 2) ∧
    c8state.trim_start = 6 ∧ ¬((6:Int) ≤ 2) := by decide

/-- Claim C8 witness: the amended statement at position 2 behind
`trim_start = 6` on the concrete trimmed buffer. -/
theorem claim_C8_witness :
    c8state.buffer.length ≤ c8state.totalWritten ∧
    (2:Int) < c8state.trim_start ∧
    ∃ n, (c8state.read_from 2 false none).1
        = (if false = true ∧ (2:Int) = 0 ∧ c8state.header ≠ [] then c8state.header
           else []) ++ c8state.buffer.take n ∧
      c8state.trim_start ≤ (c8state.read_from 2 false none).2 :=
  ⟨by decide, by decide,
   claim_C8_amended c8state 2 false none (by decide) (by decide) (by decide)⟩

/-- Claim C9: the reader operations mutate nothing — viewed as method calls
they return the receiver unchanged — and two independent cursors at offsets
0 and `N` of the same untrimmed write sequence each receive the correct
slice (everything, resp. everything from `N` on), a read on one cursor not
affecting the other. -/
theorem claim_C9 (max : Nat) (h : List Nat) (ws : List (List Nat)) (N : Nat)
    (hsum : (ws.map List.length).sum ≤ max)
    (hN : N ≤ (ws.map List.length).sum) :
    (∀ st p ih mb, (StreamBuffer.read_fromM st p ih mb).2 = st) ∧
    (∀ st p, (StreamBuffer.has_new_dataM st p).2 = st) ∧
    (writeAll ((StreamBuffer.init max).set_header h) ws).read_from 0 false none
      = (ws.flatten, (ws.flatten.length : Int)) ∧
    (writeAll ((StreamBuffer.init max).set_header h) ws).read_from (N : Int)
        false none
      = (ws.flatten.drop N, (ws.flatten.length : Int)) ∧
    (StreamBuffer.read_fromM
        (StreamBuffer.read_fromM (writeAll ((StreamBuffer.init max).set_header h) ws)
          0 false none).2 (N : Int) false none).1
      = (writeAll ((StreamBuffer.init max).set_header h) ws).read_from (N : Int)
          false none := by
  have hW : writeAll ((StreamBuffer.init max).set_header h) ws
      = ⟨h, true, ws.flatten, max, (ws.map List.length).sum⟩ := by
    rw [writeAll_no_trim ws _ (by simpa [StreamBuffer.init, StreamBuffer.set_header]
      using hsum)]
    simp [StreamBuffer.init, StreamBuffer.set_header]
  have hlen : ws.flatten.length = (ws.map List.length).sum := by
    simpa using List.length_flatten ws
  have hr : ∀ M : Nat, M ≤ ws.flatten.length →
      StreamBuffer.read_from ⟨h, true, ws.flatten, max, (ws.map List.length).sum⟩
        (M : Int) false none = (ws.flatten.drop M, (ws.flatten.length : Int)) := by
    intro M hM
    have := read_untrimmed ⟨h, true, ws.flatten, max, (ws.map List.length).sum⟩ M
      (by simpa using hlen.symm) (by simpa using hM)
    simpa using this
  have hr0 : StreamBuffer.read_from ⟨h, true, ws.flatten, max,
      (ws.map List.length).sum⟩ 0 false none
      = (ws.flatten, (ws.flatten.length : Int)) := by
    have := hr 0 (Nat.zero_le _)
    simpa using this
  refine ⟨fun st p ih mb => rfl, fun st p => rfl, ?_, ?_, ?_⟩
  · rw [hW]; exact hr0
  · rw [hW]; exact hr N (by omega)
  · simp [StreamBuffer.read_fromM]

/-- Claim C9 witness: the statement at `max_size = 10`, no header, one write
`[1,2,3]`, second cursor at offset 1. -/
theorem claim_C9_witness :
    ((([[1,2,3]] : List (List Nat)).map List.length).sum ≤ 10) ∧
    (1 ≤ (([[1,2,3]] : List (List Nat)).map List.length).sum) ∧
    (writeAll ((StreamBuffer.init 10).set_header []) [[1,2,3]]).read_from 1
        false none
      = (([[1,2,3]] : List (List Nat)).flatten.drop 1,
         ((([[1,2,3]] : List (List Nat)).flatten.length : Nat) : Int)) :=
  ⟨by decide, by decide,
   (claim_C9 10 [] [[1,2,3]] 1 (by decide) (by decide)).2.2.2.1⟩

set_option maxHeartbeats 1600000 in
set_option maxRecDepth 10000 in
/-- Claim C3 (amended): with `max_size = 1000`, after ten writes of 150
bytes each (1500 total) the retained window holds the last 900 bytes — trims
at writes 7 and 9 cut to 750, then further writes grow the window again — so
a reader joining after all writes receives the header followed by exactly
the last 900 (not 750) of the 1500 written bytes. -/
theorem claim_C3_amended (h : List Nat) (ws : List (List Nat))
    (hlen : ws.length = 10) (hall : ∀ w ∈ ws, w.length = 150) :
    (writeAll ((StreamBuffer.init 1000).set_header h) ws).read_from 0 true none
      = (h ++ ws.flatten.drop 600, 1500) := by
  rcases ws with _ | ⟨c0, ws⟩
  · simp only [List.length_nil] at hlen; omega
  rcases ws with _ | ⟨c1, ws⟩
  · simp only [List.length_cons, List.length_nil] at hlen; omega
  rcases ws with _ | ⟨c2, ws⟩
  · simp only [List.length_cons, List.length_nil] at hlen; omega
  rcases ws with _ | ⟨c3, ws⟩
  · simp only [List.length_cons, List.length_nil] at hlen; omega
  rcases ws with _ | ⟨c4, ws⟩
  · simp only [List.length_cons, List.length_nil] at hlen; omega
  rcases ws with _ | ⟨c5, ws⟩
  · simp only [List.length_cons, List.length_nil] at hlen; omega
  rcases ws with _ | ⟨c6, ws⟩
  · simp only [List.length_cons, List.length_nil] at hlen; omega
  rcases ws with _ | ⟨c7, ws⟩
  · simp only [List.length_cons, List.length_nil] at hlen; omega
  rcases ws with _ | ⟨c8, ws⟩
  · simp only [List.length_cons, List.length_nil] at hlen; omega
  rcases ws with _ | ⟨c9, ws⟩
  · simp only [List.length_cons, List.length_nil] at hlen; omega
  have hwsnil : ws = [] := by
    have hl : ws.length = 0 := by
      simp only [List.length_cons] at hlen; omega
    exact List.eq_nil_of_length_eq_zero hl
  subst hwsnil
  have h0 : c0.length = 150 := hall c0 (List.mem_cons_self _ _)
  have h1 : c1.length = 150 := hall c1 (by simp only [List.mem_cons]; tauto)
  have h2 : c2.length = 150 := hall c2 (by simp only [List.mem_cons]; tauto)
  have h3 : c3.length = 150 := hall c3 (by simp only [List.mem_cons]; tauto)
  have h4 : c4.length = 150 := hall c4 (by simp only [List.mem_cons]; tauto)
  have h5 : c5.length = 150 := hall c5 (by simp only [List.mem_cons]; tauto)
  have h6 : c6.length = 150 := hall c6 (by simp only [List.mem_cons]; tauto)
  have h7 : c7.length = 150 := hall c7 (by simp only [List.mem_cons]; tauto)
  have h8 : c8.length = 150 := hall c8 (by simp only [List.mem_cons]; tauto)
  have h9 : c9.length = 150 := hall c9 (by simp only [List.mem_cons]; tauto)
  have hs0 : (StreamBuffer.init 1000).set_header h = ⟨h, true, [], 1000, 0⟩ := rfl
  rw [hs0]
  simp only [writeAll, List.foldl_cons, List.foldl_nil]
  have e1 : StreamBuffer.write ⟨h, true, [], 1000, 0⟩ c0
      = ⟨h, true, c0, 1000, 150⟩ := by
    rw [write_no_trim _ _ (by
      show ([] : List Nat).length + c0.length ≤ 1000
      simp only [List.length_nil, h0] <;> omega)]
    show (⟨h, true, [] ++ c0, 1000, 0 + c0.length⟩ : StreamBuffer)
      = ⟨h, true, c0, 1000, 150⟩
    congr 1 <;> first | rfl | omega
  have e2 : StreamBuffer.write ⟨h, true, c0, 1000, 150⟩ c1
      = ⟨h, true, c0 ++ c1, 1000, 300⟩ := by
    rw [write_no_trim _ _ (by
      show c0.length + c1.length ≤ 1000
      simp only [h0, h1] <;> omega)]
    show (⟨h, true, c0 ++ c1, 1000, 150 + c1.length⟩ : StreamBuffer)
      = ⟨h, true, c0 ++ c1, 1000, 300⟩
    congr 1 <;> first | rfl | omega
  have e3 : StreamBuffer.write ⟨h, true, c0 ++ c1, 1000, 300⟩ c2
      = ⟨h, true, c0 ++ c1 ++ c2, 1000, 450⟩ := by
    rw [write_no_trim _ _ (by
      show (c0 ++ c1).length + c2.length ≤ 1000
      simp only [List.length_append, h0, h1, h2] <;> omega)]
    show (⟨h, true, c0 ++ c1 ++ c2, 1000, 300 + c2.length⟩ : StreamBuffer)
      = ⟨h, true, c0 ++ c1 ++ c2, 1000, 450⟩
    congr 1 <;> first | rfl | omega
  have e4 : StreamBuffer.write ⟨h, true, c0 ++ c1 ++ c2, 1000, 450⟩ c3
      = ⟨h, true, c0 ++ c1 ++ c2 ++ c3, 1000, 600⟩ := by
    rw [write_no_trim _ _ (by
      show (c0 ++ c1 ++ c2).length + c3.length ≤ 1000
      simp only [List.length_append, h0, h1, h2, h3] <;> omega)]
    show (⟨h, true, c0 ++ c1 ++ c2 ++ c3, 1000, 450 + c3.length⟩ : StreamBuffer)
      = ⟨h, true, c0 ++ c1 ++ c2 ++ c3, 1000, 600⟩
    congr 1 <;> first | rfl | omega
  have e5 : StreamBuffer.write ⟨h, true, c0 ++ c1 ++ c2 ++ c3, 1000, 600⟩ c4
      = ⟨h, true, c0 ++ c1 ++ c2 ++ c3 ++ c4, 1000, 750⟩ := by
    rw [write_no_trim _ _ (by
      show (c0 ++ c1 ++ c2 ++ c3).length + c4.length ≤ 1000
      simp only [List.length_append, h0, h1, h2, h3, h4] <;> omega)]
    show (⟨h, true, c0 ++ c1 ++ c2 ++ c3 ++ c4, 1000, 600 + c4.length⟩
      : StreamBuffer) = ⟨h, true, c0 ++ c1 ++ c2 ++ c3 ++ c4, 1000, 750⟩
    congr 1 <;> first | rfl | omega
  have e6 : StreamBuffer.write ⟨h, true, c0 ++ c1 ++ c2 ++ c3 ++ c4, 1000, 750⟩ c5
      = ⟨h, true, c0 ++ c1 ++ c2 ++ c3 ++ c4 ++ c5, 1000, 900⟩ := by
    rw [write_no_trim _ _ (by
      show (c0 ++ c1 ++ c2 ++ c3 ++ c4).length + c5.length ≤ 1000
      simp only [List.length_append, h0, h1, h2, h3, h4, h5] <;> omega)]
    show (⟨h, true, c0 ++ c1 ++ c2 ++ c3 ++ c4 ++ c5, 1000, 750 + c5.length⟩
      : StreamBuffer) = ⟨h, true, c0 ++ c1 ++ c2 ++ c3 ++ c4 ++ c5, 1000, 900⟩
    congr 1 <;> first | rfl | omega
  have hidx7 : (c0 ++ c1 ++ c2 ++ c3 ++ c4 ++ c5).length + c6.length
      - 1000 * 3 / 4 = 300 := by
    simp only [List.length_append, h0, h1, h2, h3, h4, h5, h6] <;> omega
  have e7 : StreamBuffer.write
      ⟨h, true, c0 ++ c1 ++ c2 ++ c3 ++ c4 ++ c5, 1000, 900⟩ c6
      = ⟨h, true, (c0 ++ c1 ++ c2 ++ c3 ++ c4 ++ c5 ++ c6).drop 300, 1000,
          1050⟩ := by
    rw [write_trim _ _ (by
      show 1000 < (c0 ++ c1 ++ c2 ++ c3 ++ c4 ++ c5).length + c6.length
      simp only [List.length_append, h0, h1, h2, h3, h4, h5, h6] <;> omega)]
    show (⟨h, true, (c0 ++ c1 ++ c2 ++ c3 ++ c4 ++ c5 ++ c6).drop
        ((c0 ++ c1 ++ c2 ++ c3 ++ c4 ++ c5).length + c6.length - 1000 * 3 / 4),
        1000, 900 + c6.length⟩ : StreamBuffer)
      = ⟨h, true, (c0 ++ c1 ++ c2 ++ c3 ++ c4 ++ c5 ++ c6).drop 300, 1000, 1050⟩
    rw [hidx7]
    congr 1 <;> first | rfl | omega
  have e8 : StreamBuffer.write
      ⟨h, true, (c0 ++ c1 ++ c2 ++ c3 ++ c4 ++ c5 ++ c6).drop 300, 1000, 1050⟩ c7
      = ⟨h, true, (c0 ++ c1 ++ c2 ++ c3 ++ c4 ++ c5 ++ c6).drop 300 ++ c7,
          1000, 1200⟩ := by
    rw [write_no_trim _ _ (by
      show ((c0 ++ c1 ++ c2 ++ c3 ++ c4 ++ c5 ++ c6).drop 300).length
        + c7.length ≤ 1000
      simp only [List.length_drop, List.length_append, h0, h1, h2, h3, h4, h5,
        h6, h7] <;> omega)]
    show (⟨h, true, (c0 ++ c1 ++ c2 ++ c3 ++ c4 ++ c5 ++ c6).drop 300 ++ c7,
        1000, 1050 + c7.length⟩ : StreamBuffer)
      = ⟨h, true, (c0 ++ c1 ++ c2 ++ c3 ++ c4 ++ c5 ++ c6).drop 300 ++ c7,
          1000, 1200⟩
    congr 1 <;> first | rfl | omega
  have hidx9 : ((c0 ++ c1 ++ c2 ++ c3 ++ c4 ++ c5 ++ c6).drop 300 ++ c7).length
      + c8.length - 1000 * 3 / 4 = 300 := by
    simp only [List.length_drop, List.length_append, h0, h1, h2, h3, h4, h5,
      h6, h7, h8] <;> omega
  have e9 : StreamBuffer.write
      ⟨h, true, (c0 ++ c1 ++ c2 ++ c3 ++ c4 ++ c5 ++ c6).drop 300 ++ c7,
        1000, 1200⟩ c8
      = ⟨h, true, ((c0 ++ c1 ++ c2 ++ c3 ++ c4 ++ c5 ++ c6).drop 300 ++ c7
          ++ c8).drop 300, 1000, 1350⟩ := by
    rw [write_trim _ _ (by
      show 1000 < ((c0 ++ c1 ++ c2 ++ c3 ++ c4 ++ c5 ++ c6).drop 300
        ++ c7).length + c8.length
      simp only [List.length_drop, List.length_append, h0, h1, h2, h3, h4, h5,
        h6, h7, h8] <;> omega)]
    show (⟨h, true, ((c0 ++ c1 ++ c2 ++ c3 ++ c4 ++ c5 ++ c6).drop 300 ++ c7
          ++ c8).drop
        (((c0 ++ c1 ++ c2 ++ c3 ++ c4 ++ c5 ++ c6).drop 300 ++ c7).length
          + c8.length - 1000 * 3 / 4),
        1000, 1200 + c8.length⟩ : StreamBuffer)
      = ⟨h, true, ((c0 ++ c1 ++ c2 ++ c3 ++ c4 ++ c5 ++ c6).drop 300 ++ c7
          ++ c8).drop 300, 1000, 1350⟩
    rw [hidx9]
    congr 1 <;> first | rfl | omega
  have e10 : StreamBuffer.write
      ⟨h, true, ((c0 ++ c1 ++ c2 ++ c3 ++ c4 ++ c5 ++ c6).drop 300 ++ c7
        ++ c8).drop 300, 1000, 1350⟩ c9
      = ⟨h, true, ((c0 ++ c1 ++ c2 ++ c3 ++ c4 ++ c5 ++ c6).drop 300 ++ c7
          ++ c8).drop 300 ++ c9, 1000, 1500⟩ := by
    rw [write_no_trim _ _ (by
      show (((c0 ++ c1 ++ c2 ++ c3 ++ c4 ++ c5 ++ c6).drop 300 ++ c7
        ++ c8).drop 300).length + c9.length ≤ 1000
      simp only [List.length_drop, List.length_append, h0, h1, h2, h3, h4, h5,
        h6, h7, h8, h9] <;> omega)]
    show (⟨h, true, ((c0 ++ c1 ++ c2 ++ c3 ++ c4 ++ c5 ++ c6).drop 300 ++ c7
        ++ c8).drop 300 ++ c9, 1000, 1350 + c9.length⟩ : StreamBuffer)
      = ⟨h, true, ((c0 ++ c1 ++ c2 ++ c3 ++ c4 ++ c5 ++ c6).drop 300 ++ c7
          ++ c8).drop 300 ++ c9, 1000, 1500⟩
    congr 1 <;> first | rfl | omega
  rw [e1, e2, e3, e4, e5, e6, e7, e8, e9, e10]
  have hB : (((c0 ++ c1 ++ c2 ++ c3 ++ c4 ++ c5 ++ c6).drop 300 ++ c7
      ++ c8).drop 300 ++ c9).length = 900 := by
    simp only [List.length_drop, List.length_append, h0, h1, h2, h3, h4, h5,
      h6, h7, h8, h9] <;> omega
  rw [read_zero_header_all _ (by
      show (((c0 ++ c1 ++ c2 ++ c3 ++ c4 ++ c5 ++ c6).drop 300 ++ c7
        ++ c8).drop 300 ++ c9).length ≤ 1500
      rw [hB]; omega)
    (List.ne_nil_of_length_pos (by
      show 0 < (((c0 ++ c1 ++ c2 ++ c3 ++ c4 ++ c5 ++ c6).drop 300 ++ c7
        ++ c8).drop 300 ++ c9).length
      rw [hB]; omega))]
  simp only [Prod.mk.injEq]
  constructor
  · rw [List.append_cancel_left_eq]
    norm_num only [List.flatten, List.drop_append_eq_append_drop,
      List.drop_drop, List.length_drop, List.length_append, h0, h1, h2, h3,
      h4, h5, h6, h7, h8, h9, List.drop_eq_nil_of_le, List.append_assoc,
      List.nil_append, List.append_nil, List.drop_zero]
  · norm_num
set_option maxRecDepth 100000 in
/-- Claim C3, counterexample: after the ten 150-byte writes, the first read
from 0 returns the header plus 900 bytes (the retained window), not the
claimed header plus the last 750 bytes. -/
theorem claim_C3_counterexample :
    (c3state.read_from 0 true none).1.length = 1 + 900 ∧
    (c3state.read_from 0 true none).1
      ≠ [7] ++ (List.replicate 10 (List.replicate 150 (0:Nat))).flatten.drop 750 := by
  constructor
  · decide
  · decide

set_option maxRecDepth 100000 in
/-- Claim C3 witness: the amended statement at the concrete scenario. -/
theorem claim_C3_witness :
    (List.replicate 10 (List.replicate 150 (0:Nat))).length = 10 ∧
    (∀ w ∈ List.replicate 10 (List.replicate 150 (0:Nat)), w.length = 150) ∧
    c3state.read_from 0 true none
      = ([7] ++ (List.replicate 10 (List.replicate 150 (0:Nat))).flatten.drop 600,
         1500) :=
  ⟨by decide, by decide, claim_C3_amended [7] _ (by decide) (by decide)⟩

set_option maxHeartbeats 1000000 in
/-- Claim C6 (amended): a candidate marker occurrence is accepted as the box
boundary only if it lies at index at least 4 and the 4-byte big-endian size
field right before it is at least 8 and at most the bytes available from the
size field to the end of the accumulated buffer, and on acceptance the
header is exactly the bytes before the size field; the extractor only ever
examines the first occurrence of the marker, so for the scenario input
`[30 filler][size=40][marker][payload]` it selects the declared boundary
provided the marker does not also occur earlier (first occurrence at 34) and
at least 32 payload bytes have arrived. -/
theorem claim_C6_amended (filler payload : List Nat)
    (hf : filler.length = 30) (hpay : 32 ≤ payload.length)
    (hsafe : payload.length ≤ 65498)
    (hfirst : findSub (filler ++ [0,0,0,40] ++ moofPat ++ payload) moofPat
      = some 34) :
    extractStep ⟨[], [], false⟩ (filler ++ [0,0,0,40] ++ moofPat ++ payload)
      = ⟨filler ++ [0,0,0,40] ++ moofPat ++ payload, filler, true⟩ ∧
    (∀ chunk : List Nat, chunk.length ≤ 65536 →
      (extractStep ⟨[], [], false⟩ chunk).headerComplete = true →
      ∃ mp, findSub chunk moofPat = some mp ∧ 4 ≤ mp ∧
        8 ≤ be32 ((chunk.drop (mp - 4)).take 4) ∧
        be32 ((chunk.drop (mp - 4)).take 4) ≤ chunk.length - (mp - 4) ∧
        (extractStep ⟨[], [], false⟩ chunk).header = chunk.take (mp - 4)) := by
  constructor
  · have hin : (filler ++ [0,0,0,40] ++ moofPat ++ payload).length
        = 38 + payload.length := by
      simp [hf, moofPat]
      omega
    have hdrop : ((filler ++ [0,0,0,40] ++ moofPat ++ payload).drop 30).take 4
        = [0,0,0,40] := by
      rw [List.append_assoc, List.append_assoc, ← hf, List.drop_left]
      have h40 : ([0,0,0,40] : List Nat).length = 4 := rfl
      rw [← h40, List.take_left]
    have htake : (filler ++ [0,0,0,40] ++ moofPat ++ payload).take 30
        = filler := by
      rw [List.append_assoc, List.append_assoc, ← hf, List.take_left]
    have hno : ¬(65536 < (filler ++ [0,0,0,40] ++ moofPat ++ payload).length) := by
      rw [hin]; omega
    have h32 : 32 ≤ (filler ++ [0,0,0,40] ++ moofPat ++ payload).length := by
      rw [hin]; omega
    have hszr : 40 ≤ (filler ++ [0,0,0,40] ++ moofPat ++ payload).length - 30 := by
      rw [hin]; omega
    generalize hgen : filler ++ [0,0,0,40] ++ moofPat ++ payload = input
      at hfirst hin hdrop htake hno h32 hszr ⊢
    simp [extractStep, hfirst, hdrop, htake, hno, h32, hszr, be32]
  · intro chunk hlen hcomp
    rcases hfs : findSub chunk moofPat with _ | mp
    · exfalso
      simp [extractStep, hfs] at hcomp
      split_ifs at hcomp with n1
      omega
    · by_cases h32 : 32 ≤ chunk.length
      · by_cases h4 : 4 ≤ mp
        · by_cases hsz : 8 ≤ be32 ((chunk.drop (mp - 4)).take 4) ∧
              be32 ((chunk.drop (mp - 4)).take 4) ≤ chunk.length - (mp - 4)
          · refine ⟨mp, rfl, h4, hsz.1, hsz.2, ?_⟩
            have hno : ¬(65536 < chunk.length) := by omega
            simp [extractStep, hfs, h32, h4, hsz.1, hsz.2, hno]
          · exfalso
            simp [extractStep, hfs, h32, h4, hsz] at hcomp
            split_ifs at hcomp with n1
            omega
        · exfalso
          simp [extractStep, hfs, h32, h4] at hcomp
          split_ifs at hcomp with n1
          omega
      · exfalso
        simp [extractStep, hfs, h32] at hcomp
        split_ifs at hcomp with n1
        omega


/-- Claim C6, counterexample: on `c6input` the extractor accepts the
accidental first occurrence of the marker inside the filler (its garbage
size field, 10, passes the plausibility check), latching an empty header
instead of the 30 filler bytes that precede the declared size field. -/
theorem claim_C6_counterexample :
    (extractStep ⟨[], [], false⟩ c6input).headerComplete = true ∧
    (extractStep ⟨[], [], false⟩ c6input).header = [] ∧
    c6input.take 30 ≠ ([] : List Nat) := by decide

/-- Claim C6 witness: the amended scenario with filler of 30 zero bytes
(no accidental marker, first occurrence at 34) and 32 payload bytes. -/
theorem claim_C6_witness :
    (List.replicate 30 (0:Nat)).length = 30 ∧
    32 ≤ (List.replicate 32 (1:Nat)).length ∧
    (List.replicate 32 (1:Nat)).length ≤ 65498 ∧
    findSub (List.replicate 30 (0:Nat) ++ [0,0,0,40] ++ moofPat
      ++ List.replicate 32 (1:Nat)) moofPat = some 34 ∧
    extractStep ⟨[], [], false⟩ (List.replicate 30 (0:Nat) ++ [0,0,0,40]
        ++ moofPat ++ List.replicate 32 (1:Nat))
      = ⟨List.replicate 30 (0:Nat) ++ [0,0,0,40] ++ moofPat
          ++ List.replicate 32 (1:Nat), List.replicate 30 (0:Nat), true⟩ :=
  ⟨by decide, by decide, by decide, by decide,
   (claim_C6_amended (List.replicate 30 0) (List.replicate 32 1)
     (by decide) (by decide) (by decide) (by decide)).1⟩
